import Mathlib

/-!
Verification of the catalog application (models.py, views.py, serializers.py)
of the django_local_library repository.  The data model and the view handlers
the claims refer to are shallowly embedded below: Django model rows become
Lean structures, querysets become lists, the relational store becomes an
explicit `Store` value threaded through the handlers, and calendar dates are
integers counting days from a fixed epoch (Python `date` comparison is the
integer order under this encoding).
-/

namespace Catalog

/-- Calendar dates, as days since a fixed epoch. -/
abbrev Date := Int

/-- Loan status codes of `BookInstance.LOAN_STATUS` in catalog/models.py:
`m` = Maintenance, `o` = On loan, `a` = Available, `r` = Reserved. -/
inductive LoanStatus where
  | m
  | o
  | a
  | r
deriving DecidableEq, Repr

/-- A row of the `BookInstance` model (catalog/models.py).  `uuid` is the
UUID primary key, `book` the id of the referenced `Book` row
(on_delete RESTRICT), `borrower` the id of the referenced user row
(on_delete SET_NULL, nullable), `due_back` the nullable due date. -/
structure BookInstanceRec where
  uuid : Nat
  book : Nat
  imprint : String
  due_back : Option Date
  status : LoanStatus
  borrower : Option Nat
deriving DecidableEq, Repr

/-- The `BookInstance.is_overdue` property (catalog/models.py line 103):
`bool(self.due_back and date.today() > self.due_back)`.  A `None` due date
is falsy in Python, so the conjunction short-circuits to `False`. -/
def is_overdue (today : Date) (inst : BookInstanceRec) : Bool :=
  match inst.due_back with
  | none => false
  | some d => decide (today > d)

/-- A row of the `Author` model (catalog/models.py). -/
structure AuthorRec where
  id : Nat
  first_name : String
  last_name : String
  date_of_birth : Option Date
  date_of_death : Option Date
deriving DecidableEq, Repr

/-- A row of the `Book` model (catalog/models.py).  `author` is nullable with
on_delete RESTRICT, `language` is nullable with on_delete SET_NULL, `genre`
is the many-to-many id set. -/
structure BookRec where
  id : Nat
  title : String
  author : Option Nat
  summary : String
  isbn : String
  genre : List Nat
  language : Option Nat
deriving DecidableEq, Repr

/-- A row of the `Language` model (catalog/models.py). -/
structure LanguageRec where
  id : Nat
  name : String
deriving DecidableEq, Repr

/-- The relational store backing the catalog application: one list of rows
per model. -/
structure Store where
  genres : List (Nat × String)
  languages : List LanguageRec
  authors : List AuthorRec
  books : List BookRec
  instances : List BookInstanceRec
deriving Repr

/-- Responses of the renewal view `renew_book_librarian` (catalog/views.py):
`get_object_or_404` failure, the unbound form rendered with an initial
renewal date, the re-rendered bound form after a failed validation, and the
redirect to the all-borrowed list after a successful renewal. -/
inductive RenewResponse where
  | notFound
  | renderForm (initial_renewal_date : Date)
  | renderFormBound
  | redirectAllBorrowed
deriving DecidableEq, Repr

/-- The view `renew_book_librarian` (catalog/views.py lines 120-143).  The
instance is looked up by primary key via `get_object_or_404`.  On POST the
bound `RenewBookForm` is validated (forms.py is outside the embedded sources,
so the validation verdict is the parameter `formValid`) and, when valid,
`due_back` is set to the cleaned renewal date and the handler redirects.  On
any other method the unbound form is created with initial renewal date
`date.today() + timedelta weeks=3`, i.e. today plus 21 days. -/
def renew_book_librarian (instances : List BookInstanceRec) (pk : Nat)
    (isPost : Bool) (formValid : Bool) (postedDate : Date) (today : Date) :
    List BookInstanceRec × RenewResponse :=
  match instances.find? (fun i => i.uuid = pk) with
  | none => (instances, .notFound)
  | some _ =>
    if isPost then
      if formValid then
        (instances.map (fun i =>
          if i.uuid = pk then { i with due_back := some postedDate } else i),
         .redirectAllBorrowed)
      else
        (instances, .renderFormBound)
    else
      (instances, .renderForm (today + 21))

/-- Responses of the delete views: the redirect to the list page on success,
and the redirect back to the delete-confirmation page (keyed by the primary
key of the object) taken when `self.object.delete()` raises. -/
inductive DeleteResponse where
  | redirectSuccess
  | redirectConfirm (pk : Nat)
deriving DecidableEq, Repr

/-- True when some `Book` row references the author `aid`
(`Book.author` is on_delete RESTRICT, catalog/models.py line 42). -/
def authorReferencedByBook (s : Store) (aid : Nat) : Bool :=
  s.books.any (fun b => b.author = some aid)

/-- The `AuthorDelete.form_valid` handler (catalog/views.py lines 171-178):
`self.object.delete()` raises RestrictedError when a `Book` still references
the author, the exception is caught, the store is left unchanged and the
handler redirects back to the author-delete confirmation page; otherwise the
row is deleted and the handler redirects to the success url. -/
def AuthorDelete_form_valid (s : Store) (aid : Nat) : Store × DeleteResponse :=
  if authorReferencedByBook s aid then
    (s, .redirectConfirm aid)
  else
    ({ s with authors := s.authors.filter (fun a => a.id ≠ aid) },
     .redirectSuccess)

/-- True when some `BookInstance` row references the book `bid`
(`BookInstance.book` is on_delete RESTRICT, catalog/models.py line 80). -/
def bookReferencedByInstance (s : Store) (bid : Nat) : Bool :=
  s.instances.any (fun i => i.book = bid)

/-- The `BookDelete.form_valid` handler (catalog/views.py lines 202-209),
analogous to `AuthorDelete.form_valid`. -/
def BookDelete_form_valid (s : Store) (bid : Nat) : Store × DeleteResponse :=
  if bookReferencedByInstance s bid then
    (s, .redirectConfirm bid)
  else
    ({ s with books := s.books.filter (fun b => b.id ≠ bid) },
     .redirectSuccess)

/-- Deletion of a `Language` row.  `Book.language` is declared with
on_delete SET_NULL (catalog/models.py line 55), so the deletion always
succeeds: the language row is removed and every book that referenced it has
its `language` column set to null, all other columns untouched. -/
def LanguageDelete_run (s : Store) (lid : Nat) : Store :=
  { s with
    languages := s.languages.filter (fun l => l.id ≠ lid),
    books := s.books.map (fun b =>
      if b.language = some lid then { b with language := none } else b) }

end Catalog

namespace Catalog

/-- The entity list views of catalog/views.py, named as in the source. -/
inductive EntityListView where
  | BookListView
  | AuthorListview
  | GenreListView
  | LanguageListView
  | BookInstanceListView
deriving DecidableEq, Repr

/-- The `paginate_by` attribute of each entity list view, read off
catalog/views.py lines 40-77.  `BookListView` sets `paginate_by = 5`;
`GenreListView`, `LanguageListView` and `BookInstanceListView` set
`paginate_by = 10`; `AuthorListview` (lines 49-50) sets no `paginate_by`
at all, which in Django leaves the list view unpaginated. -/
def paginate_by : EntityListView → Option Nat
  | .BookListView => some 5
  | .AuthorListview => none
  | .GenreListView => some 10
  | .LanguageListView => some 10
  | .BookInstanceListView => some 10

end Catalog

namespace Catalog

/-- Order on nullable due dates used to state the ascending `order_by`
of the loan list querysets. -/
def dueLe (x y : Option Date) : Bool :=
  match x, y with
  | none, _ => true
  | some _, none => false
  | some a, some b => decide (a ≤ b)

/-- The queryset of `LoanedBooksByUserListView.get_queryset`
(catalog/views.py lines 90-95): filter by `borrower = request.user`, then by
`status exact o`, then order ascending by `due_back`. -/
def LoanedBooksByUser_queryset (uid : Nat) (instances : List BookInstanceRec) :
    List BookInstanceRec :=
  (((instances.filter (fun i => i.borrower = some uid)).filter
      (fun i => i.status = LoanStatus.o)).mergeSort
    (fun i j => dueLe i.due_back j.due_back))

end Catalog

namespace Catalog

/-- HTTP methods relevant to the list-create API endpoints. -/
inductive HttpMethod where
  | get
  | post
deriving DecidableEq, Repr

/-- Responses of a DRF `ListCreateAPIView`: the serialized collection on GET,
the created record with its assigned identifier on a valid POST, a
validation failure, or the authentication rejection. -/
inductive ApiResponse (α : Type) where
  | listed (records : List (Nat × α))
  | created (id : Nat) (record : α)
  | badRequest
  | unauthorized
deriving DecidableEq, Repr

/-- A table exposed through the API: rows keyed by an auto-incremented
integer primary key, `nextId` being the next key to assign. -/
structure ApiStore (α : Type) where
  nextId : Nat
  items : List (Nat × α)
deriving Repr

/-- The DRF permission class `IsAuthenticatedOrReadOnly` used by
`AuthorList`, `GenreList` and `LanguageList` (catalog/views.py lines
327-357): safe methods pass, writes require an authenticated identity. -/
def isAuthenticatedOrReadOnly (method : HttpMethod) (authenticated : Bool) :
    Bool :=
  match method with
  | .get => true
  | .post => authenticated

/-- The behaviour of the `ListCreateAPIView` collection endpoints
(`AuthorList`, `GenreList`, `LanguageList`, catalog/views.py lines 327-352),
generic in the serialized field type `α` (`AuthorSerializer` fields minus
the read-only `id` for authors, the `name` string for genres and languages).
The permission class is checked first; GET lists the table; POST with a
payload the serializer accepts (`some fields`) inserts a row under the next
identifier and echoes the created record; an invalid payload is a 400. -/
def listCreateAPIView {α : Type} (s : ApiStore α) (method : HttpMethod)
    (authenticated : Bool) (payload : Option α) :
    ApiStore α × ApiResponse α :=
  if isAuthenticatedOrReadOnly method authenticated then
    match method with
    | .get => (s, .listed s.items)
    | .post =>
      match payload with
      | some fields =>
        ({ nextId := s.nextId + 1, items := s.items ++ [(s.nextId, fields)] },
         .created s.nextId fields)
      | none => (s, .badRequest)
  else
    (s, .unauthorized)

/-- The context dictionary built by the `index` view (catalog/views.py
lines 28-34). -/
structure IndexContext where
  num_books : Nat
  num_instances : Nat
  num_instances_available : Nat
  num_authors : Nat
  num_visits : Nat
deriving DecidableEq, Repr

/-- The `index` view (catalog/views.py lines 14-37).  The session slot
`num_visits` (absent on first visit, defaulting to 0) is incremented and
written back; the counts are `Book.objects.count()`,
`BookInstance.objects.count()`, the count of instances with status `a`, and
`Author.objects.count()`.  Returns the rendered context and the updated
session slot. -/
def index (session_num_visits : Option Nat) (s : Store) :
    IndexContext × Option Nat :=
  let num_visits := session_num_visits.getD 0 + 1
  ({ num_books := s.books.length,
     num_instances := s.instances.length,
     num_instances_available :=
       (s.instances.filter (fun i => i.status = LoanStatus.a)).length,
     num_authors := s.authors.length,
     num_visits := num_visits },
   some num_visits)

/-- The editable fields of `BookInstanceUpdate` (catalog/views.py lines
260-264): `imprint`, `due_back`, `borrower`, `status`.  The `book` foreign
key and the primary key are not in the form. -/
structure BookInstanceUpdateForm where
  imprint : String
  due_back : Option Date
  borrower : Option Nat
  status : LoanStatus
deriving DecidableEq, Repr

/-- Applying a valid `BookInstanceUpdate` form to a row: exactly the four
declared fields are written from the form. -/
def BookInstanceUpdate_apply (f : BookInstanceUpdateForm)
    (i : BookInstanceRec) : BookInstanceRec :=
  { i with
    imprint := f.imprint,
    due_back := f.due_back,
    borrower := f.borrower,
    status := f.status }

end Catalog

namespace Catalog

/-- Lowercasing of a name: the `Lower` database function applied by the
unique constraints of `Genre.Meta` and `Language.Meta`, every character
mapped to its lowercase form. -/
def lowerName (s : String) : String := ⟨s.data.map Char.toLower⟩

/-- A store of rows that carry only a `name` column, keyed by an
auto-incremented integer primary key.  This is the common shape of the
`Genre` and `Language` models (catalog/models.py lines 11-35 and 142-166),
whose definitions are identical: a `name` CharField plus a
`UniqueConstraint` on `Lower of name`. -/
structure NamedStore where
  nextId : Nat
  items : List (Nat × String)
deriving Repr

/-- True when some row's name equals `n` up to letter case; this is the
violation condition of the `UniqueConstraint` on `Lower of name` declared by
both `Genre.Meta` and `Language.Meta`. -/
def nameTaken (items : List (Nat × String)) (n : String) : Bool :=
  items.any (fun p => lowerName p.2 = lowerName n)

/-- Creation of a `Genre` or `Language` row.  The storage layer rejects the
insert when the lowered name collides with an existing row, quoting the
constraint's violation message; otherwise the row is appended under the next
identifier. -/
def namedCreate (s : NamedStore) (n : String) : Except String NamedStore :=
  if nameTaken s.items n then
    .error "already exists (case-insensitive match)"
  else
    .ok { nextId := s.nextId + 1, items := s.items ++ [(s.nextId, n)] }

/-- Update of the name of the row with primary key `i`.  The storage layer
rejects the write when the lowered new name collides with any other row. -/
def namedUpdate (s : NamedStore) (i : Nat) (n : String) :
    Except String NamedStore :=
  if (s.items.filter (fun p => p.1 ≠ i)).any
      (fun p => lowerName p.2 = lowerName n) then
    .error "already exists (case-insensitive match)"
  else
    .ok { s with
          items := s.items.map (fun p => if p.1 = i then (p.1, n) else p) }

/-- Deletion of the row with primary key `i` (no constraint applies). -/
def namedDelete (s : NamedStore) (i : Nat) : NamedStore :=
  { s with items := s.items.filter (fun p => p.1 ≠ i) }

/-- The store states reachable from the empty table through the create,
update and delete operations. -/
inductive NamedReachable : NamedStore → Prop where
  | init : NamedReachable ⟨0, []⟩
  | create {s t : NamedStore} {n : String} :
      NamedReachable s → namedCreate s n = .ok t → NamedReachable t
  | update {s t : NamedStore} {i : Nat} {n : String} :
      NamedReachable s → namedUpdate s i n = .ok t → NamedReachable t
  | delete {s : NamedStore} (i : Nat) :
      NamedReachable s → NamedReachable (namedDelete s i)

/-- No two rows have names that are equal up to letter case. -/
def CaseInsensitiveUnique (items : List (Nat × String)) : Prop :=
  items.Pairwise (fun p q => lowerName p.2 ≠ lowerName q.2)

/-- Internal invariant of the named store: keys are below `nextId`, keys are
pairwise distinct, and names are case-insensitively unique. -/
def NamedStoreOk (s : NamedStore) : Prop :=
  (∀ p ∈ s.items, p.1 < s.nextId) ∧
    s.items.Pairwise (fun p q => p.1 ≠ q.1) ∧
    CaseInsensitiveUnique s.items

/-- A sample book copy used to instantiate theorems with hypotheses. -/
def sampleInstance : BookInstanceRec :=
  { uuid := 1, book := 1, imprint := "Imprint", due_back := none,
    status := .o, borrower := none }

/-- A sample book row referencing author 1 and language 1. -/
def sampleBook : BookRec :=
  { id := 1, title := "Title", author := some 1, summary := "Summary",
    isbn := "9780000000001", genre := [], language := some 1 }

/-- A sample store: one author, one book referencing the author and the
language, one copy referencing the book. -/
def sampleStore : Store :=
  { genres := [], languages := [{ id := 1, name := "English" }],
    authors := [{ id := 1, first_name := "Jane", last_name := "Doe",
                  date_of_birth := none, date_of_death := none }],
    books := [sampleBook],
    instances := [sampleInstance] }

/-- A copy on loan to user 1, due on day 10. -/
def loanInstance : BookInstanceRec :=
  { uuid := 2, book := 1, imprint := "Imprint", due_back := some 10,
    status := .o, borrower := some 1 }

/-- A copy on loan to user 2, due on day 5. -/
def otherInstance : BookInstanceRec :=
  { uuid := 3, book := 1, imprint := "Imprint", due_back := some 5,
    status := .o, borrower := some 2 }

/-- A reachable store holding the single genre name Fiction. -/
def sampleGenres : NamedStore := ⟨1, [(0, "Fiction")]⟩

end Catalog

namespace Catalog

/-- C1: for every BookInstance, `is_overdue` is true iff `due_back` is set
and strictly before the current date; an instance with `due_back` yesterday
reports overdue, one with `due_back` tomorrow or unset does not. -/
theorem is_overdue_iff_due_back_before_today (today : Date)
    (inst : BookInstanceRec) :
    (is_overdue today inst = true ↔
      ∃ d, inst.due_back = some d ∧ d < today) ∧
    is_overdue today { inst with due_back := some (today - 1) } = true ∧
    is_overdue today { inst with due_back := some (today + 1) } = false ∧
    is_overdue today { inst with due_back := none } = false := by
  refine ⟨?_, ?_, ?_, ?_⟩
  · cases h : inst.due_back with
    | none => simp [is_overdue, h]
    | some d => simp [is_overdue, h]
  · simp [is_overdue]
  · simp [is_overdue]
  · simp [is_overdue]

/-- C2: invoking the renewal view for an existing BookInstance on the
non-POST path leaves the store unchanged and renders the form with a
proposed renewal date of the submission date plus exactly 21 days. -/
theorem renew_get_proposes_today_plus_21 (instances : List BookInstanceRec)
    (pk : Nat) (formValid : Bool) (postedDate today : Date)
    (h : (instances.find? (fun i => i.uuid = pk)).isSome = true) :
    renew_book_librarian instances pk false formValid postedDate today =
      (instances, .renderForm (today + 21)) := by
  unfold renew_book_librarian
  cases hf : instances.find? (fun i => i.uuid = pk) with
  | none => rw [hf] at h; simp at h
  | some v => simp

/-- Witness for C2 at a concrete store, instance and date. -/
theorem renew_get_proposes_today_plus_21_witness :
    renew_book_librarian [sampleInstance] 1 false true 0 100 =
      ([sampleInstance], .renderForm (100 + 21)) :=
  renew_get_proposes_today_plus_21 [sampleInstance] 1 true 0 100 (by decide)

/-- C7 counterexample: the Author list view sets no page size, so it is not
paginated with page size 10. -/
theorem author_list_view_not_paginated_by_10 :
    ¬ paginate_by EntityListView.AuthorListview = some 10 := by
  decide

/-- C7 amended: the Book list view paginates by 5 and the Genre, Language
and BookInstance list views paginate by 10, but the Author list view sets no
page size and is unpaginated. -/
theorem list_view_page_sizes :
    paginate_by .BookListView = some 5 ∧
    paginate_by .GenreListView = some 10 ∧
    paginate_by .LanguageListView = some 10 ∧
    paginate_by .BookInstanceListView = some 10 ∧
    paginate_by .AuthorListview = none := by
  decide

/-- C10: the BookInstance update form writes exactly imprint, due_back,
borrower and status; the book reference and the primary key of the updated
row are unchanged by every update. -/
theorem bookinstance_update_preserves_book (f : BookInstanceUpdateForm)
    (i : BookInstanceRec) :
    (BookInstanceUpdate_apply f i).book = i.book ∧
    (BookInstanceUpdate_apply f i).uuid = i.uuid ∧
    (BookInstanceUpdate_apply f i).imprint = f.imprint ∧
    (BookInstanceUpdate_apply f i).due_back = f.due_back ∧
    (BookInstanceUpdate_apply f i).borrower = f.borrower ∧
    (BookInstanceUpdate_apply f i).status = f.status :=
  ⟨rfl, rfl, rfl, rfl, rfl, rfl⟩

/-- C8: on the Author, Genre and Language collection endpoints an
unauthenticated POST is rejected with the store unchanged, an
unauthenticated GET succeeds, and an authenticated POST with valid fields
appends the record under the next identifier and returns it with that
assigned identifier. -/
theorem api_collection_auth_behaviour {α : Type} (s : ApiStore α)
    (payload : Option α) (fields : α) :
    listCreateAPIView s .post false payload = (s, .unauthorized) ∧
    listCreateAPIView s .get false none = (s, .listed s.items) ∧
    listCreateAPIView s .post true (some fields) =
      ({ nextId := s.nextId + 1, items := s.items ++ [(s.nextId, fields)] },
       .created s.nextId fields) ∧
    (s.nextId, fields) ∈
      (listCreateAPIView s .post true (some fields)).1.items := by
  refine ⟨rfl, rfl, rfl, ?_⟩
  simp [listCreateAPIView, isAuthenticatedOrReadOnly]

end Catalog

namespace Catalog

/-- C9: each load of the landing view increments the session visit counter
by one and reports the incremented value (1 on a fresh session), and two
consecutive loads report consecutive values; the reported counts are the
book count, the copy count, the count of copies with status Available and
the author count of the current store. -/
theorem index_visit_counter_and_counts (session : Option Nat) (k : Nat)
    (s s2 : Store) :
    (index none s).1.num_visits = 1 ∧
    (index (some k) s).1.num_visits = k + 1 ∧
    (index session s).2 = some ((index session s).1.num_visits) ∧
    (index (index session s).2 s2).1.num_visits =
      (index session s).1.num_visits + 1 ∧
    (index session s).1.num_books = s.books.length ∧
    (index session s).1.num_instances = s.instances.length ∧
    (index session s).1.num_instances_available =
      s.instances.countP (fun i => i.status = LoanStatus.a) ∧
    (index session s).1.num_authors = s.authors.length := by
  refine ⟨rfl, rfl, rfl, rfl, rfl, rfl, ?_, rfl⟩
  simp [index, List.countP_eq_length_filter]

/-- C3: deleting an Author referenced by some Book, or a Book referenced by
some BookInstance, leaves the whole store unchanged and redirects back to
the delete-confirmation view of the targeted record. -/
theorem delete_referenced_author_or_book_rejected (s : Store) (aid bid : Nat)
    (ha : authorReferencedByBook s aid = true)
    (hb : bookReferencedByInstance s bid = true) :
    AuthorDelete_form_valid s aid = (s, .redirectConfirm aid) ∧
    BookDelete_form_valid s bid = (s, .redirectConfirm bid) := by
  constructor
  · simp [AuthorDelete_form_valid, ha]
  · simp [BookDelete_form_valid, hb]

/-- Witness for C3 at the sample store. -/
theorem delete_referenced_rejected_witness :
    AuthorDelete_form_valid sampleStore 1 =
      (sampleStore, .redirectConfirm 1) ∧
    BookDelete_form_valid sampleStore 1 =
      (sampleStore, .redirectConfirm 1) :=
  delete_referenced_author_or_book_rejected sampleStore 1 1
    (by decide) (by decide)

/-- C4: deleting a Language always succeeds (no language row with the
deleted key remains), and every book of the prior store is still present
with title, summary, isbn, author and genre unchanged, its language set to
null exactly when it referenced the deleted language. -/
theorem language_delete_sets_null_and_preserves (s : Store) (lid : Nat)
    (b : BookRec) (hb : b ∈ s.books) :
    (∀ l ∈ (LanguageDelete_run s lid).languages, l.id ≠ lid) ∧
    ∃ c ∈ (LanguageDelete_run s lid).books,
      c.id = b.id ∧ c.title = b.title ∧ c.summary = b.summary ∧
      c.isbn = b.isbn ∧ c.author = b.author ∧ c.genre = b.genre ∧
      c.language = (if b.language = some lid then none else b.language) := by
  constructor
  · intro l hl
    simp only [LanguageDelete_run, List.mem_filter] at hl
    simpa using hl.2
  · refine ⟨if b.language = some lid then { b with language := none } else b,
      ?_, ?_⟩
    · simp only [LanguageDelete_run]
      exact List.mem_map_of_mem _ hb
    · by_cases h : b.language = some lid <;> simp [h]

/-- Witness for C4: deleting language 1 from the sample store. -/
theorem language_delete_witness :
    (∀ l ∈ (LanguageDelete_run sampleStore 1).languages, l.id ≠ 1) ∧
    ∃ c ∈ (LanguageDelete_run sampleStore 1).books,
      c.id = sampleBook.id ∧ c.title = sampleBook.title ∧
      c.summary = sampleBook.summary ∧ c.isbn = sampleBook.isbn ∧
      c.author = sampleBook.author ∧ c.genre = sampleBook.genre ∧
      c.language =
        (if sampleBook.language = some 1 then none else sampleBook.language) :=
  language_delete_sets_null_and_preserves sampleStore 1 sampleBook (by decide)

end Catalog

namespace Catalog

/-- Transitivity of the due-date order. -/
theorem dueLe_trans (a b c : Option Date) (hab : dueLe a b = true)
    (hbc : dueLe b c = true) : dueLe a c = true := by
  cases a with
  | none => simp [dueLe]
  | some x =>
    cases c with
    | none =>
      cases b with
      | none => simp [dueLe] at hab
      | some y => simp [dueLe] at hbc
    | some z =>
      cases b with
      | none => simp [dueLe] at hab
      | some y =>
        simp [dueLe] at hab hbc ⊢
        exact le_trans hab hbc

/-- Totality of the due-date order. -/
theorem dueLe_total (a b : Option Date) : (dueLe a b || dueLe b a) = true := by
  cases a with
  | none => simp [dueLe]
  | some x =>
    cases b with
    | none => simp [dueLe]
    | some y =>
      simp [dueLe]
      exact le_total x y

/-- C6: the my-loans queryset of user `uid` contains exactly the copies of
the store whose borrower is `uid` and whose status is on-loan, sorted
ascending by due date, and it depends only on the rows whose borrower is
`uid`: two stores agreeing on those rows yield the same list, so loans of
every other user are invisible in it. -/
theorem my_loans_exactly_own_outstanding (uid : Nat)
    (instances l1 l2 : List BookInstanceRec) (j : BookInstanceRec) :
    (j ∈ LoanedBooksByUser_queryset uid instances ↔
      j ∈ instances ∧ j.borrower = some uid ∧ j.status = LoanStatus.o) ∧
    (LoanedBooksByUser_queryset uid instances).Pairwise
      (fun i k => dueLe i.due_back k.due_back = true) ∧
    (l1.filter (fun i => i.borrower = some uid) =
        l2.filter (fun i => i.borrower = some uid) →
      LoanedBooksByUser_queryset uid l1 = LoanedBooksByUser_queryset uid l2) := by
  refine ⟨?_, ?_, ?_⟩
  · simp only [LoanedBooksByUser_queryset, List.mem_mergeSort,
      List.mem_filter, decide_eq_true_eq]
    tauto
  · unfold LoanedBooksByUser_queryset
    exact List.sorted_mergeSort
      (fun a b c hab hbc =>
        dueLe_trans a.due_back b.due_back c.due_back hab hbc)
      (fun a b => dueLe_total a.due_back b.due_back) _
  · intro h
    simp only [LoanedBooksByUser_queryset, h]

/-- Witness for C6: adding a loan of user 2 does not change the my-loans
list of user 1. -/
theorem my_loans_witness :
    (loanInstance ∈ LoanedBooksByUser_queryset 1 [loanInstance, otherInstance] ↔
      loanInstance ∈ [loanInstance, otherInstance] ∧
        loanInstance.borrower = some 1 ∧
        loanInstance.status = LoanStatus.o) ∧
    (LoanedBooksByUser_queryset 1 [loanInstance, otherInstance]).Pairwise
      (fun i k => dueLe i.due_back k.due_back = true) ∧
    LoanedBooksByUser_queryset 1 [loanInstance] =
      LoanedBooksByUser_queryset 1 [loanInstance, otherInstance] := by
  have h := my_loans_exactly_own_outstanding 1 [loanInstance, otherInstance]
    [loanInstance] [loanInstance, otherInstance] loanInstance
  exact ⟨h.1, h.2.1, h.2.2 (by decide)⟩

end Catalog

namespace Catalog

/-- The empty named store satisfies the invariant. -/
theorem namedStoreOk_init : NamedStoreOk ⟨0, []⟩ :=
  ⟨by simp, List.Pairwise.nil, List.Pairwise.nil⟩

/-- A successful create preserves the named-store invariant. -/
theorem namedStoreOk_create {s t : NamedStore} {n : String}
    (hs : NamedStoreOk s) (h : namedCreate s n = .ok t) : NamedStoreOk t := by
  unfold namedCreate at h
  split at h
  case isTrue hc => simp at h
  case isFalse hc =>
    simp only [Except.ok.injEq] at h
    subst h
    obtain ⟨h1, h2, h3⟩ := hs
    have hc2 : nameTaken s.items n = false := by
      simpa using hc
    have hfree : ∀ p ∈ s.items, lowerName p.2 ≠ lowerName n := by
      intro p hp
      simpa using List.any_eq_false.mp hc2 p hp
    refine ⟨?_, ?_, ?_⟩
    · intro p hp
      rcases List.mem_append.mp hp with hp1 | hp2
      · exact Nat.lt_succ_of_lt (h1 p hp1)
      · simp at hp2
        subst hp2
        exact Nat.lt_succ_self _
    · rw [List.pairwise_append]
      refine ⟨h2, List.pairwise_singleton _ _, ?_⟩
      intro a ha b hb
      simp at hb
      subst hb
      exact Nat.ne_of_lt (h1 a ha)
    · unfold CaseInsensitiveUnique
      rw [List.pairwise_append]
      refine ⟨h3, List.pairwise_singleton _ _, ?_⟩
      intro a ha b hb
      simp at hb
      subst hb
      exact hfree a ha

/-- A successful name update preserves the named-store invariant. -/
theorem namedStoreOk_update {s t : NamedStore} {i : Nat} {n : String}
    (hs : NamedStoreOk s) (h : namedUpdate s i n = .ok t) : NamedStoreOk t := by
  unfold namedUpdate at h
  split at h
  case isTrue hc => simp at h
  case isFalse hc =>
    simp only [Except.ok.injEq] at h
    subst h
    obtain ⟨h1, h2, h3⟩ := hs
    have hc2 : (s.items.filter (fun p => p.1 ≠ i)).any
        (fun p => lowerName p.2 = lowerName n) = false := by
      simpa using hc
    have hother : ∀ p ∈ s.items, p.1 ≠ i → lowerName p.2 ≠ lowerName n := by
      intro p hp hpi
      have hpf : p ∈ s.items.filter (fun p => p.1 ≠ i) := by
        simp [List.mem_filter, hp, hpi]
      simpa using List.any_eq_false.mp hc2 p hpf
    have hfst : ∀ q : Nat × String,
        (if q.1 = i then (q.1, n) else q).1 = q.1 := by
      intro q
      by_cases hqi : q.1 = i <;> simp [hqi]
    refine ⟨?_, ?_, ?_⟩
    · intro p hp
      rcases List.mem_map.mp hp with ⟨q, hq, hfq⟩
      rw [← hfq, hfst q]
      exact h1 q hq
    · rw [List.pairwise_map]
      refine h2.imp ?_
      intro a b hab
      rw [hfst a, hfst b]
      exact hab
    · unfold CaseInsensitiveUnique
      rw [List.pairwise_map]
      refine List.Pairwise.imp_of_mem ?_ (h2.and h3)
      intro a b ha hb hab
      obtain ⟨hid, hname⟩ := hab
      by_cases hai : a.1 = i <;> by_cases hbi : b.1 = i
      · exact absurd (hai.trans hbi.symm) hid
      · simp [hai, hbi]
        exact (hother b hb hbi).symm
      · simp [hai, hbi]
        exact hother a ha hai
      · simp [hai, hbi]
        exact hname

/-- Deletion preserves the named-store invariant. -/
theorem namedStoreOk_delete {s : NamedStore} (i : Nat)
    (hs : NamedStoreOk s) : NamedStoreOk (namedDelete s i) := by
  obtain ⟨h1, h2, h3⟩ := hs
  refine ⟨?_, ?_, ?_⟩
  · intro p hp
    exact h1 p (List.mem_of_mem_filter hp)
  · exact List.Pairwise.sublist (List.filter_sublist _) h2
  · exact List.Pairwise.sublist (List.filter_sublist _) h3

/-- Every reachable named store satisfies the invariant. -/
theorem namedReachable_ok {s : NamedStore} (h : NamedReachable s) :
    NamedStoreOk s := by
  induction h with
  | init => exact namedStoreOk_init
  | create _ hc ih => exact namedStoreOk_create ih hc
  | update _ hu ih => exact namedStoreOk_update ih hu
  | delete i _ ih => exact namedStoreOk_delete i ih

/-- C5: in every reachable Genre or Language store no two rows have names
equal up to letter case, and a create or update whose lowered name collides
with another row is rejected by the storage layer. -/
theorem reachable_names_case_insensitively_unique (s : NamedStore)
    (n : String) (i : Nat) (hr : NamedReachable s)
    (hc : nameTaken s.items n = true)
    (hu : (s.items.filter (fun p => p.1 ≠ i)).any
        (fun p => lowerName p.2 = lowerName n) = true) :
    CaseInsensitiveUnique s.items ∧
    (∃ e, namedCreate s n = Except.error e) ∧
    (∃ e, namedUpdate s i n = Except.error e) := by
  refine ⟨(namedReachable_ok hr).2.2, ?_, ?_⟩
  · refine ⟨"already exists (case-insensitive match)", ?_⟩
    unfold namedCreate
    simp [hc]
  · refine ⟨"already exists (case-insensitive match)", ?_⟩
    unfold namedUpdate
    simp only [hu]
    simp

/-- Witness for C5: the sample store is reachable, its names are
case-insensitively unique, and creating FICTION or renaming another row to
FICTION is rejected. -/
theorem case_insensitive_unique_witness :
    CaseInsensitiveUnique sampleGenres.items ∧
    (∃ e, namedCreate sampleGenres "FICTION" = Except.error e) ∧
    (∃ e, namedUpdate sampleGenres 5 "FICTION" = Except.error e) := by
  have hr : NamedReachable sampleGenres :=
    NamedReachable.create NamedReachable.init rfl
  exact reachable_names_case_insensitively_unique sampleGenres "FICTION" 5 hr
    (by decide) (by decide)

end Catalog
